import Mathlib

/-!
Verification of the SQL security-predicate masking engine
(`src/services/sql_masker.py`, class `SQLMasker`).

The engine is embedded shallowly: SQL text is a `List Char`, the regular
expressions of the source are translated into executable matchers with the
exact search semantics of Python's `re` module on ASCII text (leftmost scan,
greedy/lazy quantifier behaviour spelled out where it matters), and the
exception-handling wrapper of `mask_security_predicates` becomes an explicit
`Except` value.

The source calls the external `sqlparse` library only to locate the WHERE
token group; that part is modelled from the spec (see `whereTokenEndL`).
-/

namespace SqlMasker

/-- SQL text, one character per list element. -/
abbrev Sql := List Char

/-- Python `str.strip` / `\s` whitespace on ASCII text:
space, tab, newline, carriage return, vertical tab, form feed. -/
def isWsChar (c : Char) : Bool :=
  c == ' ' || c == '\t' || c == '\n' || c == '\r' || c == '\x0b' || c == '\x0c'

/-- Python regex `\w` (word character) on ASCII text: `[a-zA-Z0-9_]`. -/
def isWordChar (c : Char) : Bool :=
  ('a' ≤ c && c ≤ 'z') || ('A' ≤ c && c ≤ 'Z') || ('0' ≤ c && c ≤ '9') || c == '_'

/-- Python regex `\d` on ASCII text. -/
def isDigitChar (c : Char) : Bool :=
  '0' ≤ c && c ≤ '9'

/-- ASCII lowercasing of one character, as Python `str.lower` does on ASCII. -/
def lowerChar (c : Char) : Char :=
  if 'A' ≤ c && c ≤ 'Z' then Char.ofNat (c.toNat + 32) else c

/-- ASCII lowercasing of a string, as Python `str.lower` does on ASCII. -/
def lowerL (s : Sql) : Sql :=
  s.map lowerChar

/-- Substring containment, Python's `needle in haystack`. -/
def containsSub (needle : Sql) : Sql → Bool
  | [] => needle.isPrefixOf []
  | c :: t => needle.isPrefixOf (c :: t) || containsSub needle t

/-- Case-insensitive test that `s` starts with the (lowercase) pattern `pat`. -/
def ciStarts : Sql → Sql → Bool
  | [], _ => true
  | _ :: _, [] => false
  | p :: ps, c :: cs => (lowerChar c == p) && ciStarts ps cs

/-- `re.search` existence semantics: some suffix of the text matches `f`
at its start. -/
def existsSuffix (f : Sql → Bool) : Sql → Bool
  | [] => f []
  | c :: t => f (c :: t) || existsSuffix f t

/-! ## Classifier (`SQLMasker.security_patterns`, `_is_security_predicate`)

Each regex of `security_patterns` becomes a matcher that decides whether the
pattern matches at the start of the given (already lowercased) text; the
`re.search` call is `existsSuffix` of the matcher.  Patterns are written
lowercase because `re.IGNORECASE` on ASCII text is equivalent to matching the
lowercased text against the lowercased pattern. -/

/-- Regex piece `[^)]+\)`: one or more non-`)` characters followed by `)`.
Returns the remainder after the closing `)` when it matches. -/
def closeParenTail (r : Sql) : Option Sql :=
  if (r.takeWhile (fun c => c != ')')).isEmpty then none
  else
    match r.dropWhile (fun c => c != ')') with
    | ')' :: rest => some rest
    | _ => none

/-- Pattern `region_id\s*(?:=|IN)\s*(?:\d+|\([^)]+\))` matching at the start. -/
def matchRegionId (s : Sql) : Bool :=
  if "region_id".data.isPrefixOf s then
    let r := (s.drop 9).dropWhile isWsChar
    let afterOp : Option Sql :=
      if "=".data.isPrefixOf r then some (r.drop 1)
      else if "in".data.isPrefixOf r then some (r.drop 2)
      else none
    match afterOp with
    | none => false
    | some r2 =>
      let r3 := r2.dropWhile isWsChar
      (match r3 with
       | c :: _ => isDigitChar c
       | [] => false) ||
      (match r3 with
       | '(' :: inner => (closeParenTail inner).isSome
       | _ => false)
  else false

/-- Pattern `GETVARIABLE\([^)]+\)` matching at the start; returns the
remainder after the closing `)` when it matches. -/
def getVariableTail (s : Sql) : Option Sql :=
  if "getvariable(".data.isPrefixOf s then closeParenTail (s.drop 12) else none

/-- Pattern `GETVARIABLE\([^)]+\)` matching at the start. -/
def matchGetVariable (s : Sql) : Bool :=
  (getVariableTail s).isSome

/-- Pattern `get_user_regions\(\)` matching at the start. -/
def matchGetUserRegions (s : Sql) : Bool :=
  "get_user_regions()".data.isPrefixOf s

/-- Pattern `accessible_regions` matching at the start. -/
def matchAccessibleRegions (s : Sql) : Bool :=
  "accessible_regions".data.isPrefixOf s

/-- Pattern `current_user_id` matching at the start. -/
def matchCurrentUserId (s : Sql) : Bool :=
  "current_user_id".data.isPrefixOf s

/-- Pattern `ARRAY_CONTAINS\([^)]+\)` matching at the start. -/
def matchArrayContains (s : Sql) : Bool :=
  if "array_contains(".data.isPrefixOf s then (closeParenTail (s.drop 15)).isSome
  else false

/-- Pattern `PARSE_JSON\(\s*GETVARIABLE\([^)]+\)\)` matching at the start. -/
def matchParseJson (s : Sql) : Bool :=
  if "parse_json(".data.isPrefixOf s then
    match getVariableTail ((s.drop 11).dropWhile isWsChar) with
    | some (')' :: _) => true
    | _ => false
  else false

/-- Pattern `\$[a-zA-Z_][a-zA-Z0-9_]*` matching at the start (of lowercased
text, hence `[a-z_]` suffices for the mandatory first letter). -/
def matchSigil (s : Sql) : Bool :=
  match s with
  | '$' :: c :: _ => ('a' ≤ c && c ≤ 'z') || c == '_'
  | _ => false

/-- The `security_patterns` list of the source, as `re.search`-style tests on
lowercased predicate text, in source order. -/
def securityMatchers : List (Sql → Bool) :=
  [existsSuffix matchRegionId,
   existsSuffix matchGetVariable,
   existsSuffix matchGetUserRegions,
   existsSuffix matchAccessibleRegions,
   existsSuffix matchCurrentUserId,
   existsSuffix matchArrayContains,
   existsSuffix matchParseJson,
   existsSuffix matchSigil]

/-- The `security_keywords` list of `_is_security_predicate`, in source
order. -/
def securityKeywords : List Sql :=
  ["getvariable".data,
   "get_user_regions".data,
   "accessible_regions".data,
   "current_user_id".data,
   "array_contains".data,
   "parse_json".data]

/-- `SQLMasker._is_security_predicate`: the predicate text matches one of the
`security_patterns` regexes (case-insensitively), or its lowercasing contains
one of the `security_keywords` as a substring. -/
def isSecurityPredicateL (p : Sql) : Bool :=
  let pl := lowerL p
  securityMatchers.any (fun m => m pl) ||
    securityKeywords.any (fun k => containsSub k pl)

/-- `_is_security_predicate` on a Lean `String`. -/
def isSecurityPredicateS (p : String) : Bool :=
  isSecurityPredicateL p.data

/-! ## Predicate splitter (`_extract_business_predicates`)

`re.split(r'\s+(?:AND|OR)\s+', where_text, flags=re.IGNORECASE)`.
A separator match at a position is: a maximal nonempty whitespace run,
immediately followed by `AND` or `OR` (case-insensitively), immediately
followed by a maximal nonempty whitespace run (backtracking cannot shorten
either run, because the character after a shortened run would be whitespace
and could not start `AND`/`OR` resp. could not end the match). -/

/-- Length of the separator `\s+(?:AND|OR)\s+` matching at the start of `s`,
if it matches there. -/
def sepMatchLen (s : Sql) : Option {n : Nat // 0 < n} :=
  let w := (s.takeWhile isWsChar).length
  if hw : w = 0 then none
  else
    let r := s.drop w
    let kn := if ciStarts "and".data r then 3 else if ciStarts "or".data r then 2 else 0
    if kn = 0 then none
    else
      let w2 := ((r.drop kn).takeWhile isWsChar).length
      if w2 = 0 then none
      else some ⟨w + kn + w2, by omega⟩

/-- Worker for `splitAndOr`: left-to-right scan emitting the piece
accumulated (in reverse) in `cur` whenever a separator matches.  The `fuel`
argument only makes the recursion structural (each step consumes at least
one character, so `length + 1` fuel never runs out). -/
def splitGo : Nat → Sql → Sql → List Sql
  | 0, _, cur => [cur.reverse]
  | fuel + 1, s, cur =>
    match s with
    | [] => [cur.reverse]
    | c :: t =>
      match sepMatchLen (c :: t) with
      | some n => cur.reverse :: splitGo fuel ((c :: t).drop n.1) []
      | none => splitGo fuel t (c :: cur)

/-- `re.split(r'\s+(?:AND|OR)\s+', text, flags=re.IGNORECASE)`. -/
def splitAndOr (s : Sql) : List Sql :=
  splitGo (s.length + 1) s []

/-- Remove trailing whitespace (the right half of Python `str.strip`). -/
def trimRight : Sql → Sql
  | [] => []
  | c :: t =>
    let r := trimRight t
    if r.isEmpty && isWsChar c then [] else c :: r

/-- Python `str.strip`. -/
def pyStrip (s : Sql) : Sql :=
  trimRight (s.dropWhile isWsChar)

/-- `SQLMasker._extract_business_predicates` applied to the text of the
WHERE token: split on `AND`/`OR`, drop fragments classified as security,
strip the kept ones, preserving order. -/
def extractBusinessPredicatesL (whereText : Sql) : List Sql :=
  ((splitAndOr whereText).filter (fun p => !(isSecurityPredicateL p))).map pyStrip

/-! ## Word search (`re.search(r'\bWHERE\b', ...)` and clause endings) -/

/-- `\b` condition on the character (if any) just before the match. -/
def prevBoundaryOk : Option Char → Bool
  | none => true
  | some c => !isWordChar c

/-- `\b` condition on the text right after the match. -/
def nextBoundaryOk : Sql → Bool
  | [] => true
  | c :: _ => !isWordChar c

/-- Worker for `findWordCI`: `prev` is the character preceding the current
position (none at the start of the searched text, which for a Python slice
is the start of the slice). -/
def findWordAux (kw : Sql) (prev : Option Char) (s : Sql) (i : Nat) : Option Nat :=
  match s with
  | [] => none
  | c :: t =>
    if prevBoundaryOk prev && ciStarts kw (c :: t) && nextBoundaryOk ((c :: t).drop kw.length)
    then some i
    else findWordAux kw (some c) t (i + 1)

/-- `re.search(rf'\b{kw}\b', s, re.IGNORECASE).start()`: index of the first
whole-word, case-insensitive occurrence of `kw` (given lowercase) in `s`. -/
def findWordCI (kw : Sql) (s : Sql) : Option Nat :=
  findWordAux kw none s 0

/-- The keyword `WHERE`, lowercase. -/
def kwWhere : Sql := "where".data

/-- The `clause_endings` list of the source, lowercase, in source order. -/
def clauseEndings : List Sql :=
  ["order by".data, "group by".data, "having".data, "limit".data, "offset".data]

/-! ## Clause locator

Modelled from the spec: the source finds the WHERE token group with the
external `sqlparse` library (`_find_where_clause` iterating
`sqlparse.parse(...)[0].tokens`), which is not part of this repository.
Per spec §4.1 the located span starts at the first whole-word,
case-insensitive `WHERE` and `str(where_clause)` extends to whichever of
`ORDER BY, GROUP BY, HAVING, LIMIT, OFFSET` appears first after it, else
end-of-text. -/

/-- Modelled from the spec: end offset of the `sqlparse` WHERE token that
starts at offset `w` — the earliest following clause-ending keyword, or
end-of-text. -/
def whereTokenEndL (s : Sql) (w : Nat) : Nat :=
  let suffix := s.drop (w + 5)
  let cands := clauseEndings.filterMap (fun kw => findWordCI kw suffix)
  w + 5 + cands.foldr min suffix.length

/-- Modelled from the spec: `str(where_clause)`, the text of the WHERE token
(keyword included) located by `sqlparse`. -/
def whereTextL (s : Sql) (w : Nat) : Sql :=
  (s.drop w).take (whereTokenEndL s w - w)

/-! ## Reconstructor (`_reconstruct_sql_with_predicates`) -/

/-- The WHERE-span end used by `_reconstruct_sql_with_predicates`: the
endings of `clause_endings` are probed **in list order** and the loop breaks
at the first ending found anywhere after `WHERE` — not at the earliest
position. -/
def reconEndL (s : Sql) (w : Nat) : Nat :=
  let suffix := s.drop (w + 5)
  match clauseEndings.findSome? (fun kw => findWordCI kw suffix) with
  | some k => w + 5 + k
  | none => s.length

/-- Is the first character of `s` whitespace? -/
def headIsWs : Sql → Bool
  | [] => false
  | c :: _ => isWsChar c

/-- `re.sub(r'^\s*WHERE\s+', '', pred, flags=re.IGNORECASE)`: drop one
leading `WHERE` keyword together with surrounding whitespace, if present. -/
def stripLeadingWhereKw (p : Sql) : Sql :=
  let r := p.dropWhile isWsChar
  if ciStarts kwWhere r && headIsWs (r.drop 5) then (r.drop 5).dropWhile isWsChar
  else p

/-- The `clean_predicates` loop of `_reconstruct_sql_with_predicates`:
strip a leading `WHERE` from each retained predicate, re-strip it, and keep
it only if nonempty, preserving order. -/
def cleanPredsL (business : List Sql) : List Sql :=
  (business.map (fun p => pyStrip (stripLeadingWhereKw p))).filter
    (fun q => !q.isEmpty)

/-- `SQLMasker._reconstruct_sql_with_predicates` (its internal `try` cannot
fail in this model, so the `except` arm is dead). -/
def reconstructSqlL (original : Sql) (business : List Sql) : Sql :=
  match findWordCI kwWhere original with
  | none => original
  | some w =>
    let beforeWhere := original.take w
    let afterWhere := original.drop (reconEndL original w)
    if business.isEmpty then beforeWhere ++ afterWhere
    else
      let clean := cleanPredsL business
      if clean.isEmpty then beforeWhere ++ afterWhere
      else
        beforeWhere ++ "WHERE ".data ++ List.intercalate " AND ".data clean
          ++ [' '] ++ afterWhere

/-! ## WHERE removal (`_remove_where_clause`)

`re.sub(r'\bWHERE\b.*?(?=\b(?:ORDER BY|GROUP BY|HAVING|LIMIT|OFFSET|$))',
'', sql, flags=re.IGNORECASE | re.DOTALL)` followed by whitespace collapse
and `strip`.  The lazy `.*?` stops at the smallest offset where the
lookahead holds; the lookahead needs a `\b` word boundary followed by one of
the five keywords, or by `$` (end of text, or just before a final
newline). -/

/-- Is the first character of `s` a word character? -/
def headIsWord : Sql → Bool
  | [] => false
  | c :: _ => isWordChar c

/-- The lookahead `(?=\b(?:ORDER BY|GROUP BY|HAVING|LIMIT|OFFSET|$))` holds
between `prev` and `r`. -/
def lookaheadAt (prev : Char) (r : Sql) : Bool :=
  (isWordChar prev != headIsWord r) &&
    (clauseEndings.any (fun kw => ciStarts kw r) || r.isEmpty || r == ['\n'])

/-- Smallest offset at which the lookahead holds, scanning `r` with `prev`
the character just before it. -/
def findLookahead (prev : Char) (r : Sql) (acc : Nat) : Option Nat :=
  if lookaheadAt prev r then some acc
  else
    match r with
    | [] => none
    | c :: t => findLookahead c t (acc + 1)

/-- The deletion pass of `_remove_where_clause`: scan for `\bWHERE\b`; when
one is found, delete from it up to the smallest lookahead position after it
(resuming the scan there, with `\b` context taken from the original text, as
`re.sub` does); when the lookahead never holds, that occurrence does not
match and scanning advances one character.  `fuel` only makes the recursion
structural: every step consumes at least one character. -/
def delWherePass : Nat → Option Char → Sql → Sql
  | 0, _, _ => []
  | fuel + 1, prev, s =>
    match s with
    | [] => []
    | c :: t =>
      if prevBoundaryOk prev && ciStarts kwWhere (c :: t)
          && nextBoundaryOk ((c :: t).drop 5) then
        match findLookahead (((c :: t).drop 4).headD ' ') ((c :: t).drop 5) 0 with
        | some k =>
          delWherePass fuel (((c :: t).drop (4 + k)).headD ' ') ((c :: t).drop (5 + k))
        | none => c :: delWherePass fuel (some c) t
      else c :: delWherePass fuel (some c) t

/-- The whitespace collapse `re.sub(r'\s+', ' ', cleaned)`: every maximal
whitespace run becomes a single space.  `fuel` only makes the recursion
structural. -/
def collapseGo : Nat → Sql → Sql
  | 0, _ => []
  | fuel + 1, s =>
    match s with
    | [] => []
    | c :: t =>
      if isWsChar c then ' ' :: collapseGo fuel (t.dropWhile isWsChar)
      else c :: collapseGo fuel t

/-- `re.sub(r'\s+', ' ', s)`. -/
def collapseWs (s : Sql) : Sql :=
  collapseGo (s.length + 1) s

/-- `SQLMasker._remove_where_clause`. -/
def removeWhereClauseL (s : Sql) : Sql :=
  pyStrip (collapseWs (delWherePass (s.length + 1) none s))

/-- `_remove_where_clause` on a Lean `String`. -/
def removeWhereClauseS (s : String) : String :=
  ⟨removeWhereClauseL s.data⟩

/-! ## Top level (`mask_security_predicates`) -/

/-- The fixed fallback placeholder returned by the `except` arm of
`mask_security_predicates`. -/
def fallbackStr : String :=
  "-- SQL query generated and executed successfully\n-- (Security filters applied automatically)"

/-- `mask_security_predicates` before its `except` arm.  The only statement
of the body that can raise in this model is `sqlparse.parse(sql)[0]`, which
raises `IndexError` exactly when the input text is empty (for every nonempty
text `sqlparse` produces at least one statement); everything after it is
regex and list manipulation that cannot raise. -/
def maskEL (sql : Sql) : Except Unit Sql :=
  if sql.isEmpty then .error ()
  else
    match findWordCI kwWhere sql with
    | none => .ok sql
    | some w =>
      let business := extractBusinessPredicatesL (whereTextL sql w)
      if business.isEmpty then .ok (removeWhereClauseL sql)
      else .ok (reconstructSqlL sql business)

/-- `SQLMasker.mask_security_predicates`: the pipeline, with any raised
exception converted to the fixed fallback string. -/
def maskL (sql : Sql) : Sql :=
  match maskEL sql with
  | .ok r => r
  | .error _ => fallbackStr.data

/-- `mask_security_predicates` on a Lean `String`. -/
def maskS (sql : String) : String :=
  ⟨maskL sql.data⟩

/-- Substring containment on Lean `String`s. -/
def containsSubS (needle haystack : String) : Bool :=
  containsSub needle.data haystack.data

/-! ## Whitespace-normal form

Used to state what the whitespace collapse of `_remove_where_clause` does to
the whole statement (claim C10). -/

/-- Every whitespace character of `s` is a plain space. -/
def onlyPlainSpace (s : Sql) : Bool :=
  s.all (fun c => !isWsChar c || c == ' ')

/-- No two adjacent characters of `s` are both whitespace. -/
def noTwoWs : Sql → Bool
  | a :: b :: t => (!(isWsChar a && isWsChar b)) && noTwoWs (b :: t)
  | _ => true

/-- The first character, if any, is not whitespace. -/
def headNotWs : Sql → Bool
  | [] => true
  | c :: _ => !isWsChar c

/-- The last character, if any, is not whitespace. -/
def lastNotWs (s : Sql) : Bool :=
  match s.getLast? with
  | none => true
  | some c => !isWsChar c

/-- Whitespace-normal form: every whitespace character is a single plain
space and the text neither starts nor ends with whitespace. -/
def wellSpaced (s : Sql) : Bool :=
  onlyPlainSpace s && noTwoWs s && headNotWs s && lastNotWs s

set_option maxRecDepth 200000

/-! ## Helper lemmas about the whitespace collapse and `strip` -/

theorem noTwoWs_cons (a : Char) (l : Sql) :
    noTwoWs (a :: l) = ((!(isWsChar a && headIsWs l)) && noTwoWs l) := by
  cases l <;> simp [noTwoWs, headIsWs]

theorem headIsWs_dropWhile (l : Sql) :
    headIsWs (l.dropWhile isWsChar) = false := by
  induction l with
  | nil => rfl
  | cons a t ih =>
    by_cases hp : isWsChar a = true
    · simp [List.dropWhile_cons, hp, ih]
    · simp only [Bool.not_eq_true] at hp
      simp [List.dropWhile_cons, hp, headIsWs]

theorem collapseGo_onlyPlain (fuel : Nat) :
    ∀ s, onlyPlainSpace (collapseGo fuel s) = true := by
  induction fuel with
  | zero => intro s; rfl
  | succ n ih =>
    intro s
    cases s with
    | nil => rfl
    | cons c t =>
      by_cases hc : isWsChar c = true
      · simp only [collapseGo, hc, if_true]
        unfold onlyPlainSpace at ih ⊢
        rw [List.all_cons, ih (t.dropWhile isWsChar)]
        simp
      · have hc' : isWsChar c = false := by simpa using hc
        simp only [collapseGo, hc', Bool.false_eq_true, if_false]
        unfold onlyPlainSpace at ih ⊢
        rw [List.all_cons, ih t]
        simp [hc']

theorem collapseGo_headIsWs (fuel : Nat) :
    ∀ s, headIsWs (collapseGo fuel s) = true → headIsWs s = true := by
  induction fuel with
  | zero => intro s h; simp [collapseGo, headIsWs] at h
  | succ n _ =>
    intro s h
    cases s with
    | nil => simp [collapseGo, headIsWs] at h
    | cons c t =>
      by_cases hc : isWsChar c = true
      · simp [headIsWs, hc]
      · have hc' : isWsChar c = false := by simpa using hc
        simp only [collapseGo, hc', Bool.false_eq_true, if_false] at h
        simp only [headIsWs] at h ⊢
        exact absurd h (by simp [hc'])

theorem collapseGo_noTwo (fuel : Nat) : ∀ s, noTwoWs (collapseGo fuel s) = true := by
  induction fuel with
  | zero => intro s; rfl
  | succ n ih =>
    intro s
    cases s with
    | nil => rfl
    | cons c t =>
      by_cases hc : isWsChar c = true
      · simp only [collapseGo, hc, if_true]
        rw [noTwoWs_cons]
        have h2 : headIsWs (collapseGo n (t.dropWhile isWsChar)) = false := by
          cases hh : headIsWs (collapseGo n (t.dropWhile isWsChar)) with
          | false => rfl
          | true =>
            have h3 := collapseGo_headIsWs n (t.dropWhile isWsChar) hh
            rw [headIsWs_dropWhile] at h3
            exact absurd h3 (by simp)
        rw [h2, ih]
        simp
      · have hc' : isWsChar c = false := by simpa using hc
        simp only [collapseGo, hc', Bool.false_eq_true, if_false]
        rw [noTwoWs_cons, ih]
        simp [hc']

theorem trimRight_head? (l : Sql) (c : Char) (h : (trimRight l).head? = some c) :
    l.head? = some c := by
  cases l with
  | nil => simp [trimRight] at h
  | cons a t =>
    unfold trimRight at h
    by_cases hcond : ((trimRight t).isEmpty && isWsChar a) = true
    · rw [if_pos hcond] at h
      simp at h
    · rw [if_neg hcond] at h
      simp at h ⊢
      exact h

theorem trimRight_getLast_not_ws (l : Sql) :
    ∀ c, (trimRight l).getLast? = some c → isWsChar c = false := by
  induction l with
  | nil => intro c h; simp [trimRight] at h
  | cons a t ih =>
    intro c h
    unfold trimRight at h
    by_cases hcond : ((trimRight t).isEmpty && isWsChar a) = true
    · rw [if_pos hcond] at h
      simp at h
    · rw [if_neg hcond] at h
      cases hr : trimRight t with
      | nil =>
        rw [hr] at h hcond
        simp at h hcond
        rw [← h]
        simpa using hcond
      | cons b r =>
        rw [hr] at h
        rw [List.getLast?_cons_cons] at h
        rw [← hr] at h
        exact ih c h

theorem trimRight_sublist (l : Sql) : List.Sublist (trimRight l) l := by
  induction l with
  | nil => simp [trimRight]
  | cons a t ih =>
    unfold trimRight
    by_cases hcond : ((trimRight t).isEmpty && isWsChar a) = true
    · rw [if_pos hcond]
      exact List.nil_sublist _
    · rw [if_neg hcond]
      exact ih.cons₂ a

theorem sublist_all {p : Char → Bool} {l m : Sql} (h : List.Sublist l m)
    (hm : m.all p = true) : l.all p = true := by
  rw [List.all_eq_true] at hm ⊢
  intro x hx
  exact hm x (h.mem hx)

theorem noTwoWs_tail (a : Char) (t : Sql) (h : noTwoWs (a :: t) = true) :
    noTwoWs t = true := by
  rw [noTwoWs_cons] at h
  exact (Bool.and_eq_true_iff.mp h).2

theorem noTwoWs_of_append (pre : Sql) :
    ∀ suf, noTwoWs (pre ++ suf) = true → noTwoWs suf = true := by
  induction pre with
  | nil => intro suf h; exact h
  | cons a t ih =>
    intro suf h
    rw [List.cons_append] at h
    exact ih suf (noTwoWs_tail _ _ h)

theorem noTwoWs_suffix {l m : Sql} (h : List.IsSuffix l m) (hm : noTwoWs m = true) :
    noTwoWs l = true := by
  obtain ⟨pre, rfl⟩ := h
  exact noTwoWs_of_append pre l hm

theorem trimRight_headIsWs (t : Sql) (h : headIsWs (trimRight t) = true) :
    headIsWs t = true := by
  cases htr : trimRight t with
  | nil => rw [htr] at h; simp [headIsWs] at h
  | cons b r =>
    rw [htr] at h
    have hb := trimRight_head? t b (by rw [htr]; rfl)
    cases t with
    | nil => simp at hb
    | cons x u =>
      simp at hb
      simp only [headIsWs] at h ⊢
      rw [hb]
      exact h

theorem trimRight_noTwo (l : Sql) (h : noTwoWs l = true) :
    noTwoWs (trimRight l) = true := by
  induction l with
  | nil => simpa [trimRight] using h
  | cons a t ih =>
    unfold trimRight
    by_cases hcond : ((trimRight t).isEmpty && isWsChar a) = true
    · rw [if_pos hcond]; rfl
    · rw [if_neg hcond]
      rw [noTwoWs_cons]
      have ht := ih (noTwoWs_tail _ _ h)
      rw [ht, Bool.and_true]
      cases hhead : headIsWs (trimRight t) with
      | false => simp
      | true =>
        have hwt : headIsWs t = true := trimRight_headIsWs t hhead
        rw [noTwoWs_cons] at h
        have h1 := (Bool.and_eq_true_iff.mp h).1
        rw [hwt] at h1
        simp at h1
        rw [h1]
        simp

theorem trimRight_headNotWs (z : Sql) (h : headIsWs z = false) :
    headNotWs (trimRight z) = true := by
  cases hh : trimRight z with
  | nil => rfl
  | cons b r =>
    have hb := trimRight_head? z b (by rw [hh]; rfl)
    cases z with
    | nil => simp at hb
    | cons x u =>
      simp at hb
      simp only [headIsWs] at h
      simp only [headNotWs]
      rw [hb] at h
      simp [h]

theorem trimRight_lastNotWs (z : Sql) : lastNotWs (trimRight z) = true := by
  unfold lastNotWs
  cases hg : (trimRight z).getLast? with
  | none => rfl
  | some c => simp [trimRight_getLast_not_ws z c hg]

/-- The output of `_remove_where_clause` is always in whitespace-normal
form: the collapse `re.sub(r'\s+', ' ', ...)` and the final `strip` act on
the whole statement. -/
theorem removeWhere_wellSpaced (s : Sql) : wellSpaced (removeWhereClauseL s) = true := by
  unfold removeWhereClauseL pyStrip
  have hyOnly : onlyPlainSpace (collapseWs (delWherePass (s.length + 1) none s)) = true :=
    collapseGo_onlyPlain _ _
  have hyNoTwo : noTwoWs (collapseWs (delWherePass (s.length + 1) none s)) = true :=
    collapseGo_noTwo _ _
  have hzOnly : onlyPlainSpace
      ((collapseWs (delWherePass (s.length + 1) none s)).dropWhile isWsChar) = true :=
    sublist_all (List.dropWhile_sublist isWsChar) hyOnly
  have hzNoTwo := noTwoWs_suffix (List.dropWhile_suffix isWsChar) hyNoTwo
  have hzHead := headIsWs_dropWhile (collapseWs (delWherePass (s.length + 1) none s))
  have hOnly : onlyPlainSpace
      (trimRight ((collapseWs (delWherePass (s.length + 1) none s)).dropWhile isWsChar)) = true :=
    sublist_all (trimRight_sublist _) hzOnly
  have hNoTwo := trimRight_noTwo _ hzNoTwo
  have hHead := trimRight_headNotWs _ hzHead
  have hLast := trimRight_lastNotWs
    ((collapseWs (delWherePass (s.length + 1) none s)).dropWhile isWsChar)
  unfold wellSpaced
  rw [hOnly, hNoTwo, hHead, hLast]
  rfl

/-! ## Claim theorems -/

/-- Claim C2: `mask_security_predicates` always returns a string; whenever
the pipeline raises, the returned value is exactly the fixed placeholder,
and whenever it does not raise, the pipeline result is returned as is. -/
theorem claim_C2_failures_contained (s : Sql) :
    (maskEL s = .error () → maskL s = fallbackStr.data) ∧
    (∀ t, maskEL s = .ok t → maskL s = t) := by
  constructor
  · intro h
    unfold maskL
    rw [h]
  · intro t h
    unfold maskL
    rw [h]

/-- Witness for C2: on the empty input the parse step raises and the fixed
placeholder is returned. -/
theorem claim_C2_witness :
    maskEL "".data = .error () ∧ maskL "".data = fallbackStr.data :=
  ⟨rfl, (claim_C2_failures_contained "".data).1 rfl⟩

/-- Claim C5: a statement without a WHERE clause is returned unchanged
(`sqlparse` yields a statement for any nonempty text, so the fallback arm is
not taken). -/
theorem claim_C5_no_where_identity (s : Sql) (hne : s.isEmpty = false)
    (hw : findWordCI kwWhere s = none) : maskL s = s := by
  unfold maskL maskEL
  rw [hne, hw]
  simp

/-- Witness for C5: the spec's no-WHERE example is returned identical. -/
theorem claim_C5_witness :
    maskL "SELECT a, b FROM t GROUP BY a".data = "SELECT a, b FROM t GROUP BY a".data :=
  claim_C5_no_where_identity "SELECT a, b FROM t GROUP BY a".data (by decide) (by decide)

/-- Claim C6 (code bug): the reconstruction probes the clause endings in
fixed list order and breaks at the first ending that occurs anywhere, so for
`... WHERE b = 1 GROUP BY a ORDER BY a` the span end is the position of
`ORDER BY`, not the earlier `GROUP BY`, and the `GROUP BY` clause is
silently dropped from the output. -/
theorem claim_C6_span_end_priority_bug :
    maskS "SELECT a FROM t WHERE b = 1 GROUP BY a ORDER BY a"
      = "SELECT a FROM t WHERE b = 1 ORDER BY a" ∧
    containsSubS "GROUP BY" "SELECT a FROM t WHERE b = 1 GROUP BY a ORDER BY a" = true ∧
    containsSubS "GROUP BY" (maskS "SELECT a FROM t WHERE b = 1 GROUP BY a ORDER BY a") = false := by
  refine ⟨by decide, by decide, by decide⟩

/-- Claim C7 (code bug): for an all-security WHERE clause in a statement
that ends with a non-word character and has no tail clause, the deletion
regex of `_remove_where_clause` finds no match (its final `$` alternative
needs a word boundary), so the WHERE keyword and the whole security clause
survive in the output. -/
theorem claim_C7_where_clause_retained :
    isSecurityPredicateS "WHERE current_user_id IN (1)" = true ∧
    maskS "SELECT a FROM t WHERE current_user_id IN (1)"
      = "SELECT a FROM t WHERE current_user_id IN (1)" ∧
    containsSubS "WHERE" (maskS "SELECT a FROM t WHERE current_user_id IN (1)") = true := by
  refine ⟨by decide, by decide, by decide⟩

/-- Claim C1 (code bug): the sole WHERE fragment of this statement is
classified Security, yet the masked output still contains its literal text,
because `_remove_where_clause` deletes nothing when the statement ends with
a non-word character and has no tail clause. -/
theorem claim_C1_security_fragment_leaks :
    findWordCI kwWhere "SELECT x FROM t WHERE ARRAY_CONTAINS(a, b)".data = some 16 ∧
    whereTextL "SELECT x FROM t WHERE ARRAY_CONTAINS(a, b)".data 16
      = "WHERE ARRAY_CONTAINS(a, b)".data ∧
    isSecurityPredicateS "WHERE ARRAY_CONTAINS(a, b)" = true ∧
    maskS "SELECT x FROM t WHERE ARRAY_CONTAINS(a, b)"
      = "SELECT x FROM t WHERE ARRAY_CONTAINS(a, b)" ∧
    containsSubS "WHERE ARRAY_CONTAINS(a, b)"
      (maskS "SELECT x FROM t WHERE ARRAY_CONTAINS(a, b)") = true := by
  refine ⟨by decide, by decide, by decide, by decide, by decide⟩

/-- Claim C8 (code bug): on the unbalanced-parenthesis statement nothing in
the pipeline raises — the lone fragment `(` is classified Business and the
code reconstructs `... WHERE ( `, so the fixed fallback placeholder is NOT
returned (the repository's own `test_malformed_sql_fallback` expects it). -/
theorem claim_C8_no_fallback_on_malformed :
    maskS "SELECT * FROM sales_data WHERE (" = "SELECT * FROM sales_data WHERE ( " ∧
    maskS "SELECT * FROM sales_data WHERE (" ≠ fallbackStr := by
  refine ⟨by decide, by decide⟩

/-- Counterexample to C9: equality and membership tests on identifiers other
than `region_id` are classified Business, not Security. -/
theorem claim_C9_counterexample :
    isSecurityPredicateS "customer_id = 500" = false ∧
    isSecurityPredicateS "dept IN (10, 20)" = false := by
  refine ⟨by decide, by decide⟩

/-- Claim C9 as amended: only fragments matching the literal
`region_id\s*(?:=|IN)\s*(?:\d+|\([^)]+\))` shape are classified Security by
the region/tenant rule. -/
theorem claim_C9_region_id_security (p : Sql)
    (h : existsSuffix matchRegionId (lowerL p) = true) :
    isSecurityPredicateL p = true := by
  unfold isSecurityPredicateL securityMatchers
  simp only [List.any_cons, List.any_nil, Bool.or_eq_true]
  exact Or.inl (Or.inl h)

/-- Witness for the amended C9 at a concrete `region_id` test. -/
theorem claim_C9_witness : isSecurityPredicateL "region_id = 42".data = true :=
  claim_C9_region_id_security "region_id = 42".data (by decide)

/-- Counterexample to C10: the removal path runs (zero business
predicates), yet the output is not the input with the WHERE span deleted —
the deletion regex needs a word boundary before a tail keyword or
end-of-text, the statement ends with `)`, so the whole WHERE clause
survives. -/
theorem claim_C10_counterexample :
    (extractBusinessPredicatesL
      (whereTextL "SELECT x FROM t WHERE GETVARIABLE(a)".data 16)).isEmpty = true ∧
    maskS "SELECT x FROM t WHERE GETVARIABLE(a)" = "SELECT x FROM t WHERE GETVARIABLE(a)" ∧
    maskS "SELECT x FROM t WHERE GETVARIABLE(a)" ≠ "SELECT x FROM t" := by
  refine ⟨by decide, by decide, by decide⟩

/-- Claim C10 as amended: whenever the removal path runs, every maximal
whitespace run anywhere in the resulting statement is collapsed to a single
plain space and the ends are trimmed (first conjunct, for every input —
including the SELECT list and any string literal, as the second conjunct
shows on a concrete statement); but the WHERE span itself is deleted only
when the deletion regex finds a word-boundary tail-keyword position or a
word-boundary end-of-text after it — otherwise the clause is left in place
(third conjunct). -/
theorem claim_C10_amended :
    (∀ s : Sql, wellSpaced (removeWhereClauseL s) = true) ∧
    removeWhereClauseS "SELECT  a ,\tb FROM t  WHERE current_user_id = 1"
      = "SELECT a , b FROM t" ∧
    removeWhereClauseS "SELECT y FROM u WHERE GETVARIABLE(b)"
      = "SELECT y FROM u WHERE GETVARIABLE(b)" :=
  ⟨removeWhere_wellSpaced, by decide, by decide⟩

/-- Claim C3: the classifier is fail-closed — any fragment containing one of
the six security keywords anywhere (case-insensitively), or a `$identifier`
sigil, is classified Security, and such a fragment is then never among the
retained fragments of any WHERE-clause split (dropped whole, never partially
stripped). -/
theorem claim_C3_classifier_fail_closed (p : Sql)
    (h : (∃ k ∈ securityKeywords, containsSub k (lowerL p) = true) ∨
         existsSuffix matchSigil (lowerL p) = true) :
    isSecurityPredicateL p = true ∧
    ∀ w, p ∈ splitAndOr w →
      p ∉ (splitAndOr w).filter (fun q => !(isSecurityPredicateL q)) := by
  have hs : isSecurityPredicateL p = true := by
    unfold isSecurityPredicateL
    show ((securityMatchers.any fun m => m (lowerL p))
        || (securityKeywords.any fun k => containsSub k (lowerL p))) = true
    rcases h with ⟨k, hk, hc⟩ | hsig
    · have hany : securityKeywords.any (fun k => containsSub k (lowerL p)) = true :=
        List.any_eq_true.mpr ⟨k, hk, hc⟩
      rw [hany, Bool.or_true]
    · unfold securityMatchers
      simp only [List.any_cons, List.any_nil, Bool.or_eq_true]
      exact Or.inl (Or.inr (Or.inr (Or.inr (Or.inr (Or.inr (Or.inr (Or.inr (Or.inl hsig))))))))
  refine ⟨hs, ?_⟩
  intro w _ hcontra
  have h2 := (List.mem_filter.mp hcontra).2
  rw [hs] at h2
  simp at h2

/-- Witness for C3 at a fragment containing a security keyword. -/
theorem claim_C3_witness :
    isSecurityPredicateL "a GETVARIABLE b".data = true :=
  (claim_C3_classifier_fail_closed "a GETVARIABLE b".data (Or.inl (by decide))).1

/-- Claim C4: when the WHERE clause keeps at least one (nonempty) Business
fragment, the output is the text before `WHERE`, then `WHERE ` followed by
the retained fragments (stripped of the leading `WHERE` keyword and
surrounding whitespace, in original source order) joined by ` AND `, then a
single space and the unchanged tail from the clause-end boundary onward. -/
theorem claim_C4_reconstruction_format (sql : Sql) (w : Nat)
    (hw : findWordCI kwWhere sql = some w)
    (hb : (extractBusinessPredicatesL (whereTextL sql w)).isEmpty = false)
    (hc : (cleanPredsL (extractBusinessPredicatesL (whereTextL sql w))).isEmpty = false) :
    maskL sql =
      sql.take w ++ "WHERE ".data
        ++ List.intercalate " AND ".data
             (cleanPredsL (extractBusinessPredicatesL (whereTextL sql w)))
        ++ [' '] ++ sql.drop (reconEndL sql w) := by
  have hne : sql.isEmpty = false := by
    cases sql with
    | nil => simp [findWordCI, findWordAux] at hw
    | cons c t => rfl
  unfold maskL maskEL
  rw [hne, hw]
  simp only [hb, Bool.false_eq_true, if_false]
  unfold reconstructSqlL
  rw [hw]
  simp only [hb, hc, Bool.false_eq_true, if_false]

/-- Witness for C4 at the spec's mixed clause: three business predicates
are kept in order, the security predicate is dropped, `ORDER BY` tail is
preserved. -/
theorem claim_C4_witness :
    maskL "SELECT c FROM s WHERE quarter IN (3, 4) AND revenue > 100000 AND current_user_id = GETVARIABLE(7) AND category != 9 ORDER BY revenue DESC".data
      = "SELECT c FROM s WHERE quarter IN (3, 4) AND revenue > 100000 AND category != 9 ORDER BY revenue DESC".data := by
  have h := claim_C4_reconstruction_format
    "SELECT c FROM s WHERE quarter IN (3, 4) AND revenue > 100000 AND current_user_id = GETVARIABLE(7) AND category != 9 ORDER BY revenue DESC".data
    16 (by decide) (by decide) (by decide)
  exact h.trans (by decide)

end SqlMasker
